import Mathlib

/-!
Verification of the envparser decode engine (src/parser.go).

The development shallowly embeds the two functions of the repository,
`Parse` and `setValueFromEnv`, over an explicit model of Go struct values.
The Go standard-library collaborators are handled as follows:

* `strings.Split`, `strings.TrimSpace`, `strconv.Atoi`, `strconv.ParseInt`,
  `strconv.ParseUint`, `strconv.ParseBool` and the `reflect` integer width
  conversions are modelled concretely, because the claims under scrutiny
  depend on their exact behavior.
* `net/url.ParseQuery` (the `form` codec) is modelled concretely from the
  Go standard library semantics, because the form-decoding claim depends on
  its separator and escape handling (the repository's own tests pin it).
* `time.ParseDuration`, `time.Parse` (RFC3339), `strconv.ParseFloat`, and
  the json/xml/base64 codecs are abstract parameters (`Codecs`): the spec
  treats them as external collaborators consumed through their contracts,
  and no claim depends on their internal semantics.  Floating point values
  are represented opaquely (by an abstract parse result), keeping IEEE
  arithmetic out of scope.
* `os.LookupEnv` is an explicit `String → Option String` parameter.

Go machine integers are modelled as `Int`/`Nat` with explicit wrapping at
the relevant widths where the code performs a width conversion.
-/

/-! ## Model of the Go standard string helpers used by the code -/

/-- Decimal digit test, as used by strconv for base-10 parsing. -/
def isDecDigit (c : Char) : Bool := '0' ≤ c ∧ c ≤ '9'

/-- Models `unicode.IsSpace`: the Unicode White_Space code points
(`strings.TrimSpace` trims exactly these). -/
def goIsSpace (c : Char) : Bool :=
  let n := c.toNat
  (9 ≤ n ∧ n ≤ 13) ∨ n = 32 ∨ n = 0x85 ∨ n = 0xA0 ∨ n = 0x1680 ∨
    (0x2000 ≤ n ∧ n ≤ 0x200A) ∨ n = 0x2028 ∨ n = 0x2029 ∨ n = 0x202F ∨
    n = 0x205F ∨ n = 0x3000

/-- Models `strings.TrimSpace`: drop White_Space characters from both ends. -/
def goTrimSpace (s : String) : String :=
  String.mk (((s.data.dropWhile goIsSpace).reverse.dropWhile goIsSpace).reverse)

/-- Splits a character list around every occurrence of `sep`.  Models the
behavior of `strings.Split` with a single-character separator: splitting the
empty string yields one empty field. -/
def splitChar (sep : Char) : List Char → List (List Char)
  | [] => [[]]
  | c :: t =>
    match splitChar sep t with
    | [] => [[]]
    | g :: gs => if c = sep then [] :: g :: gs else (c :: g) :: gs

/-- Models `strings.Split s ","` on Go strings. -/
def goSplitComma (s : String) : List String :=
  (splitChar ',' s.data).map (fun l => String.mk l)

/-- Models `strings.Cut` with a single-character separator: the part before
the first occurrence of `sep` and the part after it (empty when `sep` does
not occur, exactly as the `form` code path uses it). -/
def cutChar (sep : Char) : List Char → List Char × List Char
  | [] => ([], [])
  | c :: t =>
    if c = sep then ([], t)
    else
      match cutChar sep t with
      | (a, b) => (c :: a, b)

/-! ## Model of the strconv parsers used by the code -/

/-- Models `strconv.Quote` for the strings appearing in parse errors.  The
escape table is restricted to the characters relevant here; strings made of
printable characters other than the quote and backslash are quoted
verbatim. -/
def goQuote (s : String) : String :=
  let esc : Char → String := fun c =>
    if c = '"' then "\\\"" else if c = '\\' then "\\\\"
    else if c = '\n' then "\\n" else if c = '\t' then "\\t"
    else if c = '\r' then "\\r" else String.mk [c]
  "\"" ++ String.join (s.data.map esc) ++ "\""

/-- Message of a `*strconv.NumError`, as produced by `strconv` for the
function named `fn`. -/
def numErrorMsg (fn s reason : String) : String :=
  "strconv." ++ fn ++ ": parsing " ++ goQuote s ++ ": " ++ reason

/-- Accumulator loop of base-10 digit reading: `none` as soon as a
non-digit appears. -/
def decValAux : List Char → Nat → Option Nat
  | [], acc => some acc
  | c :: t, acc =>
    if isDecDigit c then decValAux t (acc * 10 + (c.toNat - 48)) else none

/-- Value of a non-empty all-digit string; `none` on the empty string or on
any non-digit character (signs and underscores included, which is what
base-10 `strconv.ParseUint` rejects as a syntax error). -/
def decDigitsVal? : List Char → Option Nat
  | [] => none
  | c :: t => decValAux (c :: t) 0

/-- Models `strconv.ParseUint s 10 bitSize`: no sign is permitted, the
digits are read in base 10, and values of `bitSize` bits or more are a
range error.  `fn` is the function name reported in the error message. -/
def goParseUint (fn s : String) (bitSize : Nat) : Except String Nat :=
  match decDigitsVal? s.data with
  | none => .error (numErrorMsg fn s "invalid syntax")
  | some n =>
    if n < 2 ^ bitSize then .ok n
    else .error (numErrorMsg fn s "value out of range")

/-- Models `strconv.ParseInt s 10 bitSize`: an optional leading sign
followed by base-10 digits, with the signed `bitSize`-bit range check. -/
def goParseInt (fn s : String) (bitSize : Nat) : Except String Int :=
  let signed : Bool × List Char :=
    match s.data with
    | '-' :: t => (true, t)
    | '+' :: t => (false, t)
    | t => (false, t)
  match decDigitsVal? signed.2 with
  | none => .error (numErrorMsg fn s "invalid syntax")
  | some m =>
    let v : Int := if signed.1 then -(m : Int) else (m : Int)
    if -(2 ^ (bitSize - 1) : Int) ≤ v ∧ v < (2 ^ (bitSize - 1) : Int) then .ok v
    else .error (numErrorMsg fn s "value out of range")

/-- Models `strconv.Atoi` on a 64-bit platform: `ParseInt(s, 10, 0)` with
the platform `int` width of 64 bits, reporting errors under the name
`Atoi`. -/
def goAtoi (s : String) : Except String Int := goParseInt "Atoi" s 64

/-- Models `strconv.ParseBool`: exactly the documented literal set. -/
def goParseBool (s : String) : Except String Bool :=
  if s = "1" ∨ s = "t" ∨ s = "T" ∨ s = "true" ∨ s = "TRUE" ∨ s = "True" then .ok true
  else if s = "0" ∨ s = "f" ∨ s = "F" ∨ s = "false" ∨ s = "FALSE" ∨ s = "False" then .ok false
  else .error (numErrorMsg "ParseBool" s "invalid syntax")

/-! ## Model of the reflect width conversions -/

/-- Two's-complement truncation of an `int64` value to 32 bits, as performed
by `reflect.Value.SetInt` on an `int32` field (a plain `int32(x)`
conversion). -/
def wrapInt32 (n : Int) : Int := (n + 2 ^ 31).emod (2 ^ 32) - 2 ^ 31

/-- Truncation of a `uint64` value to 32 bits, as performed by
`reflect.Value.SetUint` on a `uint32` field (a plain `uint32(x)`
conversion). -/
def wrapUint32 (n : Nat) : Nat := n % 2 ^ 32

example : goAtoi "2" = .ok 2 := rfl
example : goAtoi "2e" = .error (numErrorMsg "Atoi" "2e" "invalid syntax") := rfl
example : goParseUint "ParseUint" "-3" 64 =
    .error (numErrorMsg "ParseUint" "-3" "invalid syntax") := rfl
example : goParseUint "ParseUint" "4294967297" 64 = .ok 4294967297 := rfl
example : goSplitComma "a,b,c" = ["a", "b", "c"] := rfl
example : goSplitComma "" = [""] := rfl
example : goTrimSpace " a " = "a" := rfl

/-! ## Model of Go struct values

A `GoVal` is the runtime value of a field together with the dynamic type
information the code dispatches on (`switch field.Interface().(type)` in
`setValueFromEnv`, `reflect.Kind` checks in `Parse`).  One constructor per
case of the type switch; `vStruct` for struct-kind values walked by
`Parse`; `vValues`, `vBytes` and `vOpaque` for the remaining types, which
reach the `default` branch of the switch.  `time.Time` values and float
values are opaque (their internal semantics are outside the decode
engine); float values are the abstract result of the float codec. -/

mutual
inductive GoVal where
  | vDuration (ns : Int)
  | vTime (t : String)
  | vInt (n : Int)
  | vInt32 (n : Int)
  | vInt64 (n : Int)
  | vUint (n : Nat)
  | vUint32 (n : Nat)
  | vUint64 (n : Nat)
  | vFloat32 (x : String)
  | vFloat64 (x : String)
  | vBool (b : Bool)
  | vString (s : String)
  | vSliceString (xs : List String)
  | vSliceInt (xs : List Int)
  | vSliceInt32 (xs : List Int)
  | vSliceInt64 (xs : List Int)
  | vSliceFloat32 (xs : List String)
  | vSliceFloat64 (xs : List String)
  | vSliceUint (xs : List Nat)
  | vSliceUint32 (xs : List Nat)
  | vSliceUint64 (xs : List Nat)
  | vStruct (fields : List GoField)
  | vValues (m : List (String × List String))
  | vBytes (bs : List Nat)
  | vOpaque (tyName : String)
deriving Repr

/-- One field of a Go struct: its name, the `Anonymous` flag, the `CanSet`
settability, the `env` and `encoding` tag values (`""` when absent, as
`reflect.StructTag.Get` reports), and its current value. -/
inductive GoField where
  | mk (name : String) (anonymous canSet : Bool) (envTag encodingTag : String) (value : GoVal)
deriving Repr
end

def GoField.value : GoField → GoVal
  | .mk _ _ _ _ _ v => v

def GoField.envTag : GoField → String
  | .mk _ _ _ t _ _ => t

/-- Whether `reflect.Kind` of the field's type is `reflect.Struct`.
`time.Time` is a struct type; every other constructor outside `vStruct`
stands for a non-struct kind (`url.Values` is a map, `[]byte` a slice,
`vOpaque` any remaining non-struct type). -/
def GoVal.kindIsStruct : GoVal → Bool
  | .vStruct _ => true
  | .vTime _ => true
  | _ => false

/-- Whether the value's dynamic type is matched by one of the listed cases
of the type switch in `setValueFromEnv` (everything else falls to the
`default` branch with the `encoding` tag dispatch). -/
def GoVal.inTypeSwitch : GoVal → Bool
  | .vStruct _ => false
  | .vValues _ => false
  | .vBytes _ => false
  | .vOpaque _ => false
  | _ => true

/-! ## External codecs

The spec (§1, §6) treats duration/timestamp/float parsing and the
json/xml/base64 codecs as external collaborators with
`Result`-typed contracts.  They are abstract here; theorems quantify over
them.  `jsonDecode`/`xmlDecode` receive the current field value and return
the field value after the call together with an optional error, mirroring
`json.Unmarshal(data, &field)`, which writes through the pointer it is
given. -/
structure Codecs where
  parseDuration : String → Except String Int
  parseTime : String → Except String String
  parseFloat : Nat → String → Except String String
  jsonDecode : String → GoVal → GoVal × Option String
  xmlDecode : String → GoVal → GoVal × Option String
  base64Decode : String → Except String (List Nat)

/-! ## Model of `net/url.ParseQuery` (the `form` codec)

Modelled concretely from the Go standard library: the query is cut into
`&`-separated segments; a segment containing `;` sets the
"invalid semicolon separator in query" error; empty segments are skipped;
each segment is cut at its first `=` and both halves are query-unescaped
(`+` becomes space, `%XX` must be two hex digits), an unescape failure
becoming the error if none is recorded yet; surviving pairs are collected
into the multi-valued map. -/

/-- Hexadecimal digit value, as `net/url.unhex` accepts. -/
def unhex? (c : Char) : Option Nat :=
  if '0' ≤ c ∧ c ≤ '9' then some (c.toNat - 48)
  else if 'a' ≤ c ∧ c ≤ 'f' then some (c.toNat - 97 + 10)
  else if 'A' ≤ c ∧ c ≤ 'F' then some (c.toNat - 65 + 10)
  else none

/-- Models `url.QueryUnescape` on the character list of a Go string. -/
def queryUnescapeAux : List Char → Except String (List Char)
  | [] => .ok []
  | '%' :: rest =>
    match rest with
    | a :: b :: t =>
      match unhex? a, unhex? b with
      | some x, some y => (queryUnescapeAux t).map (fun l => Char.ofNat (16 * x + y) :: l)
      | _, _ => .error ("invalid URL escape " ++ goQuote (String.mk ['%', a, b]))
    | _ => .error ("invalid URL escape " ++ goQuote (String.mk ('%' :: rest)))
  | '+' :: t => (queryUnescapeAux t).map (fun l => ' ' :: l)
  | c :: t => (queryUnescapeAux t).map (fun l => c :: l)

/-- Appends `v` to the value list of `k` in the multi-valued map, keeping
first-insertion key order. -/
def upsert (m : List (String × List String)) (k v : String) : List (String × List String) :=
  match m with
  | [] => [(k, [v])]
  | (k', vs) :: rest => if k' = k then (k', vs ++ [v]) :: rest else (k', vs) :: upsert rest k v

/-- Segment loop of `url.parseQuery`, over the `&`-separated segments, with
the collected map and the currently recorded error. -/
def parseQuerySeg (acc : List (String × List String)) (err : Option String) :
    List String → List (String × List String) × Option String
  | [] => (acc, err)
  | seg :: rest =>
    if seg.data.contains ';' then
      parseQuerySeg acc (some "invalid semicolon separator in query") rest
    else if seg = "" then
      parseQuerySeg acc err rest
    else
      match queryUnescapeAux (cutChar '=' seg.data).1 with
      | .error e1 =>
        parseQuerySeg acc (match err with | some e => some e | none => some e1) rest
      | .ok k =>
        match queryUnescapeAux (cutChar '=' seg.data).2 with
        | .error e1 =>
          parseQuerySeg acc (match err with | some e => some e | none => some e1) rest
        | .ok v => parseQuerySeg (upsert acc (String.mk k) (String.mk v)) err rest

/-- Models `url.ParseQuery`: the repository's caller uses the map only when
the returned error is nil, so the partially collected map of the error case
is not exposed. -/
def goParseQuery (s : String) : Except String (List (String × List String)) :=
  match parseQuerySeg [] none ((splitChar '&' s.data).map (fun l => String.mk l)) with
  | (_, some e) => .error e
  | (m, none) => .ok m

example : goParseQuery "field1=value&field2=val" =
    .ok [("field1", ["value"]), ("field2", ["val"])] := rfl
example : goParseQuery "field1=value;field2=val" =
    .error "invalid semicolon separator in query" := rfl
example : goParseQuery "a=%zz" = .error ("invalid URL escape " ++ goQuote "%zz") := rfl
example : goParseQuery "a=b&a=c" = .ok [("a", ["b", "c"])] := rfl

/-! ## The conversion step (`setValueFromEnv`, src/parser.go lines 72-239) -/

/-- Element loop shared by all slice cases of `setValueFromEnv`: convert the
split elements in order, stopping at the first element whose conversion
fails and returning that element's cause; on success the converted list is
what the field is set to. -/
def convSlice {α : Type} (conv : String → Except String α) : List String → Except String (List α)
  | [] => .ok []
  | x :: xs =>
    match conv x with
    | .error e => .error e
    | .ok v =>
      match convSlice conv xs with
      | .error e => .error e
      | .ok vs => .ok (v :: vs)

/-- Embedding of `setValueFromEnv(field, fieldType, val)`.  The result is
the field value after the call together with the returned error (`none` for
a nil error).  Dispatch follows the type switch on the field's dynamic
type; the `default` branch dispatches on the `encoding` tag.  In the
`json`/`xml` branches the field's address is passed to the codec, so the
resulting field value is whatever the codec leaves there; in every other
branch the code writes the field only after a successful parse. -/
def setValueFromEnv (c : Codecs) (v : GoVal) (encTag : String) (val : String) :
    GoVal × Option String :=
  match v with
  | .vDuration _ =>
    match c.parseDuration val with
    | .error e => (v, some e)
    | .ok d => (.vDuration d, none)
  | .vTime _ =>
    match c.parseTime val with
    | .error e => (v, some e)
    | .ok t => (.vTime t, none)
  | .vInt _ =>
    match goAtoi val with
    | .error e => (v, some e)
    | .ok n => (.vInt n, none)
  | .vInt32 _ =>
    match goAtoi val with
    | .error e => (v, some e)
    | .ok n => (.vInt32 (wrapInt32 n), none)
  | .vInt64 _ =>
    match goAtoi val with
    | .error e => (v, some e)
    | .ok n => (.vInt64 n, none)
  | .vUint _ =>
    match goParseUint "ParseUint" val 64 with
    | .error e => (v, some e)
    | .ok n => (.vUint n, none)
  | .vUint32 _ =>
    match goParseUint "ParseUint" val 64 with
    | .error e => (v, some e)
    | .ok n => (.vUint32 (wrapUint32 n), none)
  | .vUint64 _ =>
    match goParseUint "ParseUint" val 64 with
    | .error e => (v, some e)
    | .ok n => (.vUint64 n, none)
  | .vFloat32 _ =>
    match c.parseFloat 64 val with
    | .error e => (v, some e)
    | .ok x => (.vFloat32 x, none)
  | .vFloat64 _ =>
    match c.parseFloat 64 val with
    | .error e => (v, some e)
    | .ok x => (.vFloat64 x, none)
  | .vBool _ =>
    match goParseBool val with
    | .error e => (v, some e)
    | .ok b => (.vBool b, none)
  | .vString _ => (.vString val, none)
  | .vSliceString _ => (.vSliceString (goSplitComma val), none)
  | .vSliceInt _ =>
    match convSlice (fun x => goAtoi (goTrimSpace x)) (goSplitComma val) with
    | .error e => (v, some e)
    | .ok xs => (.vSliceInt xs, none)
  | .vSliceInt32 _ =>
    match convSlice (fun x => (goAtoi (goTrimSpace x)).map wrapInt32) (goSplitComma val) with
    | .error e => (v, some e)
    | .ok xs => (.vSliceInt32 xs, none)
  | .vSliceInt64 _ =>
    match convSlice (fun x => goParseInt "ParseInt" (goTrimSpace x) 64) (goSplitComma val) with
    | .error e => (v, some e)
    | .ok xs => (.vSliceInt64 xs, none)
  | .vSliceFloat32 _ =>
    match convSlice (fun x => c.parseFloat 32 (goTrimSpace x)) (goSplitComma val) with
    | .error e => (v, some e)
    | .ok xs => (.vSliceFloat32 xs, none)
  | .vSliceFloat64 _ =>
    match convSlice (fun x => c.parseFloat 64 (goTrimSpace x)) (goSplitComma val) with
    | .error e => (v, some e)
    | .ok xs => (.vSliceFloat64 xs, none)
  | .vSliceUint _ =>
    match convSlice (fun x => goParseUint "ParseUint" (goTrimSpace x) 64) (goSplitComma val) with
    | .error e => (v, some e)
    | .ok xs => (.vSliceUint xs, none)
  | .vSliceUint32 _ =>
    match convSlice (fun x => (goParseUint "ParseUint" (goTrimSpace x) 32).map wrapUint32)
        (goSplitComma val) with
    | .error e => (v, some e)
    | .ok xs => (.vSliceUint32 xs, none)
  | .vSliceUint64 _ =>
    match convSlice (fun x => goParseUint "ParseUint" (goTrimSpace x) 64) (goSplitComma val) with
    | .error e => (v, some e)
    | .ok xs => (.vSliceUint64 xs, none)
  | _ =>
    match encTag with
    | "json" => c.jsonDecode val v
    | "xml" => c.xmlDecode val v
    | "form" =>
      match goParseQuery val with
      | .error e => (v, some e)
      | .ok m => (.vValues m, none)
    | "base64" =>
      match c.base64Decode val with
      | .error e => (v, some e)
      | .ok bs => (.vBytes bs, none)
    | _ => (v, none)

/-! ## The traversal (`Parse`, src/parser.go lines 17-70) -/

/-- Errors returned by `Parse`, by construction site: the invalid-target
error of line 20, the missing-environment-key error of line 52, and the
aggregated conversion-failure error of lines 60-66 carrying the ordered
`(key, cause)` pairs. -/
inductive GoErr where
  | invalidTarget
  | missingEnv (key : String)
  | aggregated (entries : List (String × String))
deriving Repr, DecidableEq

/-- Message of one accumulated entry, as wrapped at append time by
`fmt.Errorf("env '%s': %v", envKey, err)`. -/
def wrapEntry (p : String × String) : String := "env '" ++ p.1 ++ "': " ++ p.2

/-- Message string of each error, mirroring the `errors.New`/`fmt.Errorf`
calls; the aggregate is built like the `strings.Builder` loop: the fixed
banner, then each wrapped entry followed by a newline. -/
def renderGoErr : GoErr → String
  | .invalidTarget => "target must be a pointer to a struct"
  | .missingEnv k => "missing " ++ k ++ " environment"
  | .aggregated es => es.foldl (fun acc p => acc ++ (wrapEntry p ++ "\n"))
      "error parsing environment to struct:\n"

/-- The environment source: `os.LookupEnv`. -/
def EnvSrc : Type := String → Option String

mutual
/-- Embedding of `Parse(target)`.  The Boolean says whether the argument is
a pointer (`reflect.ValueOf(target).Kind() == reflect.Ptr`); `v` is the
pointed-to value (the argument itself when not a pointer).  The result is
the value after the call together with the returned error.  A pointer to a
`time.Time` passes the struct-kind check and walks only unexported fields,
so it returns nil leaving the value unchanged. -/
def Parse (c : Codecs) (env : EnvSrc) : Bool → GoVal → GoVal × Option GoErr
  | false, v => (v, some .invalidTarget)
  | true, .vStruct fs =>
    match parseFields c env fs with
    | (fs', .error e) => (.vStruct fs', some e)
    | (fs', .ok errs) =>
      (.vStruct fs', if errs.isEmpty then none else some (.aggregated errs))
  | true, .vTime t => (.vTime t, none)
  | true, v => (v, some .invalidTarget)

/-- The field loop of `Parse` (lines 27-58): skip unsettable fields;
recurse into anonymous fields and into struct-kind fields whose `env` tag
is absent or `-`, any error of the recursive call returning immediately;
skip remaining fields with absent or `-` tags; look the key up, a missing
key returning immediately; otherwise convert, appending `(key, cause)` to
the accumulator on failure and continuing.  Returns the updated fields and
either the hard error (fields after it untouched) or the accumulator. -/
def parseFields (c : Codecs) (env : EnvSrc) :
    List GoField → List GoField × Except GoErr (List (String × String))
  | [] => ([], .ok [])
  | .mk name anon canSet envTag encTag v :: rest =>
    if canSet = false then
      match parseFields c env rest with
      | (rest', r) => (.mk name anon canSet envTag encTag v :: rest', r)
    else if anon = true ∨ (v.kindIsStruct = true ∧ (envTag = "" ∨ envTag = "-")) then
      match Parse c env true v with
      | (v', some e) => (.mk name anon canSet envTag encTag v' :: rest, .error e)
      | (v', none) =>
        match parseFields c env rest with
        | (rest', r) => (.mk name anon canSet envTag encTag v' :: rest', r)
    else if envTag = "" ∨ envTag = "-" then
      match parseFields c env rest with
      | (rest', r) => (.mk name anon canSet envTag encTag v :: rest', r)
    else
      match env envTag with
      | none => (.mk name anon canSet envTag encTag v :: rest, .error (.missingEnv envTag))
      | some s =>
        match setValueFromEnv c v encTag s with
        | (v', some cause) =>
          match parseFields c env rest with
          | (rest', .error e) =>
            (.mk name anon canSet envTag encTag v' :: rest', .error e)
          | (rest', .ok errs) =>
            (.mk name anon canSet envTag encTag v' :: rest', .ok ((envTag, cause) :: errs))
        | (v', none) =>
          match parseFields c env rest with
          | (rest', r) => (.mk name anon canSet envTag encTag v' :: rest', r)
end

/-! ## Concrete codec instances for evaluation -/

/-- A concrete `Codecs` instance for evaluating the model at specific
inputs: every abstract collaborator fails with a fixed message, and the
json/xml codecs leave the field untouched on failure. -/
def trivCodecs : Codecs :=
  ⟨fun _ => .error "duration error", fun _ => .error "time error",
   fun _ _ => .error "float error",
   fun _ v => (v, some "json error"), fun _ v => (v, some "xml error"),
   fun _ => .error "base64 error"⟩

/-- A concrete `Codecs` instance whose json codec overwrites the field and
still reports an error, which `encoding/json.Unmarshal` is permitted to do
(and does, on type errors occurring after some fields were decoded): the
repository passes the field's address into the codec. -/
def mutCodecs : Codecs :=
  ⟨fun _ => .error "duration error", fun _ => .error "time error",
   fun _ _ => .error "float error",
   fun _ _ => (.vString "clobbered", some "json error"),
   fun _ v => (v, some "xml error"),
   fun _ => .error "base64 error"⟩

example : Parse trivCodecs (fun k => if k = "STRING_VAL" then some "hello" else none) true
    (.vStruct [.mk "StringVal" false true "STRING_VAL" "" (.vString "")])
    = (.vStruct [.mk "StringVal" false true "STRING_VAL" "" (.vString "hello")], none) := rfl

example : Parse trivCodecs (fun _ => none) false
    (.vStruct [.mk "StringVal" false true "STRING_VAL" "" (.vString "")])
    = (.vStruct [.mk "StringVal" false true "STRING_VAL" "" (.vString "")],
       some .invalidTarget) := rfl

example : Parse trivCodecs (fun _ => none) true
    (.vStruct [.mk "StringVal" false true "STRING_VAL" "" (.vString "")])
    = (.vStruct [.mk "StringVal" false true "STRING_VAL" "" (.vString "")],
       some (.missingEnv "STRING_VAL")) := rfl

example : Parse trivCodecs (fun k => if k = "NESTED" then some "nested value" else none) true
    (.vStruct [.mk "Nested" true true "" ""
      (.vStruct [.mk "Value" false true "NESTED" "" (.vString "")])])
    = (.vStruct [.mk "Nested" true true "" ""
        (.vStruct [.mk "Value" false true "NESTED" "" (.vString "nested value")])], none) := rfl

example : Parse trivCodecs (fun k => if k = "EMBEDED" then some "embeded value" else none) true
    (.vStruct [.mk "Embeded" false true "" ""
      (.vStruct [.mk "Value" false true "EMBEDED" "" (.vInt 0)])])
    = (.vStruct [.mk "Embeded" false true "" ""
        (.vStruct [.mk "Value" false true "EMBEDED" "" (.vInt 0)])],
       some (.aggregated [("EMBEDED", numErrorMsg "Atoi" "embeded value" "invalid syntax")]))
    := rfl

example : setValueFromEnv trivCodecs (.vSliceInt []) "" "1,2,3"
    = (.vSliceInt [1, 2, 3], none) := rfl

example : setValueFromEnv trivCodecs (.vSliceInt []) "" "1,2,3e"
    = (.vSliceInt [], some (numErrorMsg "Atoi" "3e" "invalid syntax")) := rfl

example : renderGoErr (.aggregated [("A", "x"), ("B", "y")])
    = "error parsing environment to struct:\nenv 'A': x\nenv 'B': y\n" := rfl

/-! ## Traversal lemmas -/

/-- Decomposition of the field loop over a split of the field list: a hard
error inside `xs` returns at once with `ys` untouched and any accumulated
entries discarded; otherwise the loop continues into `ys`, a hard error
there discarding the accumulator of `xs`, and otherwise the two
accumulators concatenate in declaration order. -/
theorem parseFields_append (c : Codecs) (env : EnvSrc) (xs ys : List GoField) :
    parseFields c env (xs ++ ys) =
      match parseFields c env xs with
      | (xs', .error e) => (xs' ++ ys, .error e)
      | (xs', .ok errs) =>
        match parseFields c env ys with
        | (ys', .error e) => (xs' ++ ys', .error e)
        | (ys', .ok errs2) => (xs' ++ ys', .ok (errs ++ errs2)) := by
  induction xs with
  | nil =>
    simp only [List.nil_append, parseFields]
    rcases hy : parseFields c env ys with ⟨ys', ry⟩
    cases ry <;> simp
  | cons f xs ih =>
    cases f with
    | mk name anon canSet envTag encTag v =>
      by_cases h1 : canSet = false
      · simp only [List.cons_append, parseFields, if_pos h1]
        rcases hx : parseFields c env xs with ⟨xs', rx⟩
        rcases hy : parseFields c env ys with ⟨ys', ry⟩
        cases rx <;> cases ry <;> simp [ih, hx, hy]
      · by_cases h2 : anon = true ∨ (v.kindIsStruct = true ∧ (envTag = "" ∨ envTag = "-"))
        · simp only [List.cons_append, parseFields, if_neg h1, if_pos h2]
          rcases hp : Parse c env true v with ⟨v', e?⟩
          cases e? with
          | some e => simp
          | none =>
            rcases hx : parseFields c env xs with ⟨xs', rx⟩
            rcases hy : parseFields c env ys with ⟨ys', ry⟩
            cases rx <;> cases ry <;> simp [ih, hx, hy]
        · by_cases h3 : envTag = "" ∨ envTag = "-"
          · simp only [List.cons_append, parseFields, if_neg h1, if_neg h2, if_pos h3]
            rcases hx : parseFields c env xs with ⟨xs', rx⟩
            rcases hy : parseFields c env ys with ⟨ys', ry⟩
            cases rx <;> cases ry <;> simp [ih, hx, hy]
          · simp only [List.cons_append, parseFields, if_neg h1, if_neg h2, if_neg h3]
            rcases he : env envTag with _ | s
            · simp
            · rcases hs : setValueFromEnv c v encTag s with ⟨v', cause?⟩
              rcases hx : parseFields c env xs with ⟨xs', rx⟩
              rcases hy : parseFields c env ys with ⟨ys', ry⟩
              cases cause? <;> cases rx <;> cases ry <;> simp [ih, hx, hy, hs]

/-! ## Conversion lemmas -/

/-- The slice element loop fails on the first failing element, reporting
that element's cause, whatever comes after it. -/
theorem convSlice_first_error {α : Type} (conv : String → Except String α)
    (pre : List String) (x : String) (rest : List String) (e : String)
    (hpre : ∀ y ∈ pre, ∃ v, conv y = .ok v) (hx : conv x = .error e) :
    convSlice conv (pre ++ x :: rest) = .error e := by
  induction pre with
  | nil => simp [convSlice, hx]
  | cons y ys ih =>
    obtain ⟨v, hv⟩ := hpre y (by simp)
    have hrec := ih (fun z hz => hpre z (by simp [hz]))
    simp [convSlice, hv, hrec]

/-- On success, the slice element loop returns exactly the elementwise
conversions, in order. -/
theorem convSlice_ok_forall {α : Type} (conv : String → Except String α) :
    ∀ xs ys, convSlice conv xs = .ok ys →
      List.Forall₂ (fun x y => conv x = .ok y) xs ys := by
  intro xs
  induction xs with
  | nil =>
    intro ys h
    simp only [convSlice] at h
    cases h
    exact .nil
  | cons x xs ih =>
    intro ys h
    simp only [convSlice] at h
    rcases hc : conv x with e | v <;> rw [hc] at h
    · cases h
    · rcases hrest : convSlice conv xs with e | vs <;> rw [hrest] at h
      · cases h
      · cases h
        exact .cons hc (ih vs hrest)

/-- Lines of the aggregate message, one wrapped entry per accumulated
pair, each followed by a newline. -/
def joinedLines : List (String × String) → String
  | [] => ""
  | p :: ps => (wrapEntry p ++ "\n") ++ joinedLines ps

theorem foldl_wrapEntry (es : List (String × String)) (init : String) :
    es.foldl (fun acc p => acc ++ (wrapEntry p ++ "\n")) init = init ++ joinedLines es := by
  induction es generalizing init with
  | nil => simp [joinedLines]
  | cons p ps ih => simp [joinedLines, ih, String.append_assoc]

/-- The aggregate error message is the fixed banner followed by the lines
of the accumulated entries in order. -/
theorem renderGoErr_aggregated (es : List (String × String)) :
    renderGoErr (.aggregated es)
      = "error parsing environment to struct:\n" ++ joinedLines es := by
  simp [renderGoErr, foldl_wrapEntry]

/-! ## `url.ParseQuery` lemmas -/

/-- Once an error is recorded, the segment loop never clears it. -/
theorem parseQuerySeg_some_absorbs (segs : List String) :
    ∀ acc e, ∃ e', (parseQuerySeg acc (some e) segs).2 = some e' := by
  induction segs with
  | nil => exact fun acc e => ⟨e, rfl⟩
  | cons seg rest ih =>
    intro acc e
    simp only [parseQuerySeg]
    by_cases h1 : seg.data.contains ';'
    · simp only [if_pos h1]
      exact ih acc "invalid semicolon separator in query"
    · by_cases h2 : seg = ""
      · simp only [if_neg h1, if_pos h2]
        exact ih acc e
      · simp only [if_neg h1, if_neg h2]
        rcases hk : queryUnescapeAux (cutChar '=' seg.data).1 with e1 | k
        · exact ih acc e
        · rcases hv : queryUnescapeAux (cutChar '=' seg.data).2 with e1 | v
          · exact ih acc e
          · exact ih (upsert acc (String.mk k) (String.mk v)) e

/-- When the segment loop finishes without error, no segment contained a
semicolon and every non-empty segment query-unescaped on both sides of its
first `=`. -/
theorem parseQuerySeg_ok_clean (segs : List String) :
    ∀ acc err m, parseQuerySeg acc err segs = (m, none) →
      ∀ seg ∈ segs, seg.data.contains ';' = false ∧
        (seg ≠ "" → (∃ k, queryUnescapeAux (cutChar '=' seg.data).1 = .ok k) ∧
          (∃ w, queryUnescapeAux (cutChar '=' seg.data).2 = .ok w)) := by
  induction segs with
  | nil => intro acc err m _ seg hseg; cases hseg
  | cons seg rest ih =>
    intro acc err m hloop s hs
    rw [parseQuerySeg] at hloop
    by_cases h1 : seg.data.contains ';'
    · rw [if_pos h1] at hloop
      obtain ⟨e', he'⟩ :=
        parseQuerySeg_some_absorbs rest acc "invalid semicolon separator in query"
      rw [hloop] at he'
      cases he'
    · by_cases h2 : seg = ""
      · rw [if_neg h1, if_pos h2] at hloop
        rcases List.mem_cons.mp hs with rfl | hs'
        · subst h2
          exact ⟨rfl, fun hne => absurd rfl hne⟩
        · exact ih acc err m hloop s hs'
      · rw [if_neg h1, if_neg h2] at hloop
        rcases hk : queryUnescapeAux (cutChar '=' seg.data).1 with e1 | k <;>
          simp only [hk] at hloop
        · obtain ⟨e2, he2⟩ : ∃ e2,
              (match err with | some e => some e | none => some e1) = some e2 := by
            cases err with
            | some e => exact ⟨e, rfl⟩
            | none => exact ⟨e1, rfl⟩
          rw [he2] at hloop
          obtain ⟨e', he'⟩ := parseQuerySeg_some_absorbs rest acc e2
          rw [hloop] at he'
          cases he'
        · rcases hv : queryUnescapeAux (cutChar '=' seg.data).2 with e1 | w <;>
            simp only [hv] at hloop
          · obtain ⟨e2, he2⟩ : ∃ e2,
                (match err with | some e => some e | none => some e1) = some e2 := by
              cases err with
              | some e => exact ⟨e, rfl⟩
              | none => exact ⟨e1, rfl⟩
            rw [he2] at hloop
            obtain ⟨e', he'⟩ := parseQuerySeg_some_absorbs rest acc e2
            rw [hloop] at he'
            cases he'
          · rcases List.mem_cons.mp hs with rfl | hs'
            · refine ⟨by simpa using h1, fun _ => ⟨⟨k, hk⟩, ⟨w, hv⟩⟩⟩
            · exact ih _ err m hloop s hs'

/-- On success of `url.ParseQuery`, every `&`-segment of the raw string was
free of semicolons and validly percent-encoded. -/
theorem goParseQuery_ok_clean (s : String) (m : List (String × List String))
    (h : goParseQuery s = .ok m) :
    ∀ seg ∈ (splitChar '&' s.data).map (fun l => String.mk l),
      seg.data.contains ';' = false ∧
      (seg ≠ "" → (∃ k, queryUnescapeAux (cutChar '=' seg.data).1 = .ok k) ∧
        (∃ w, queryUnescapeAux (cutChar '=' seg.data).2 = .ok w)) := by
  rw [goParseQuery] at h
  rcases hloop : parseQuerySeg [] none
      ((splitChar '&' s.data).map (fun l => String.mk l)) with ⟨m', e?⟩
  rw [hloop] at h
  cases e? with
  | some e => cases h
  | none => exact parseQuerySeg_ok_clean _ [] none m' hloop

/-! ## strconv characterization lemmas -/

/-- A base-10 unsigned parse never accepts a leading minus sign. -/
theorem goParseUint_rejects_minus (fn s : String) (b : Nat)
    (h : s.data.head? = some '-') :
    goParseUint fn s b = .error (numErrorMsg fn s "invalid syntax") := by
  rcases hd : s.data with _ | ⟨c, t⟩ <;> rw [hd] at h
  · cases h
  · cases h
    have hdig : isDecDigit '-' = false := by decide
    simp [goParseUint, decDigitsVal?, decValAux, hd, hdig]

/-- A base-10 unsigned parse rejects values of `b` bits or more as a range
error. -/
theorem goParseUint_rejects_big (fn s : String) (b n : Nat)
    (hd : decDigitsVal? s.data = some n) (hn : 2 ^ b ≤ n) :
    goParseUint fn s b = .error (numErrorMsg fn s "value out of range") := by
  simp [goParseUint, hd, Nat.not_lt.mpr hn]

/-- Values accepted by the unsigned parse fit in `b` bits. -/
theorem goParseUint_ok_lt (fn s : String) (b n : Nat)
    (h : goParseUint fn s b = .ok n) : n < 2 ^ b := by
  rw [goParseUint] at h
  split at h
  · cases h
  · split at h
    · injection h with h'
      subst h'
      assumption
    · cases h

/-- Values accepted by `strconv.Atoi` fit in the signed 64-bit range. -/
theorem goAtoi_ok_range (s : String) (n : Int) (h : goAtoi s = .ok n) :
    -(2 ^ 63) ≤ n ∧ n < 2 ^ 63 := by
  simp only [goAtoi, goParseInt] at h
  split at h
  · cases h
  · split at h <;> split at h <;> injection h <;> rename_i h' <;> subst h' <;>
      (rename_i hcond
       norm_num at hcond ⊢
       exact hcond)

/-! ## Claim theorems -/

/-- C7: a non-pointer argument, or a pointer whose referent is not of
struct kind, makes `Parse` fail immediately with the invalid-target error:
the value is returned unchanged (no field mutated) and the result does not
depend on the environment source (no key is ever looked up). -/
theorem Parse_invalid_target (c : Codecs) (env env' : EnvSrc) (isPtr : Bool) (v : GoVal)
    (h : isPtr = false ∨ v.kindIsStruct = false) :
    Parse c env isPtr v = (v, some .invalidTarget) ∧
    Parse c env isPtr v = Parse c env' isPtr v := by
  rcases h with h | h
  · subst h
    cases v <;> exact ⟨rfl, rfl⟩
  · cases isPtr
    · cases v <;> exact ⟨rfl, rfl⟩
    · cases v <;> simp [GoVal.kindIsStruct] at h <;> exact ⟨rfl, rfl⟩

/-- Witness for C7: a non-pointer integer target is rejected unchanged,
under two different environments. -/
theorem Parse_invalid_target_witness :
    Parse trivCodecs (fun _ => none) false (.vInt 0) = (.vInt 0, some .invalidTarget) ∧
    Parse trivCodecs (fun _ => none) false (.vInt 0)
      = Parse trivCodecs (fun _ => some "7") false (.vInt 0) :=
  Parse_invalid_target trivCodecs (fun _ => none) (fun _ => some "7") false (.vInt 0)
    (Or.inl rfl)

/-- C2: a writable, non-embedded field carrying a non-skip `env` key that
is absent from the environment makes the whole call fail at once with the
missing-key error naming that key: entries accumulated before it are
discarded rather than reported alongside it, the field itself and all
fields after it are left untouched, and the error message names the key. -/
theorem Parse_missing_key_short_circuits (c : Codecs) (env : EnvSrc)
    (pre pre' : List GoField) (errs0 : List (String × String))
    (name encTag k : String) (v : GoVal) (rest : List GoField)
    (hpre : parseFields c env pre = (pre', .ok errs0))
    (hk1 : k ≠ "") (hk2 : k ≠ "-") (henv : env k = none) :
    Parse c env true (.vStruct (pre ++ .mk name false true k encTag v :: rest))
      = (.vStruct (pre' ++ .mk name false true k encTag v :: rest),
         some (.missingEnv k)) ∧
    renderGoErr (.missingEnv k) = "missing " ++ k ++ " environment" := by
  refine ⟨?_, rfl⟩
  have hcons : parseFields c env (GoField.mk name false true k encTag v :: rest)
      = (GoField.mk name false true k encTag v :: rest, .error (.missingEnv k)) := by
    rw [parseFields, if_neg (by simp), if_neg (by simp [hk1, hk2]),
      if_neg (by simp [hk1, hk2]), henv]
  have happ := parseFields_append c env pre (GoField.mk name false true k encTag v :: rest)
  rw [hpre, hcons] at happ
  have happ2 : parseFields c env (pre ++ GoField.mk name false true k encTag v :: rest)
      = (pre' ++ GoField.mk name false true k encTag v :: rest,
         .error (.missingEnv k)) := happ
  simp [Parse, happ2]

/-- Witness for C2: a single annotated field with an empty environment. -/
theorem Parse_missing_key_witness :
    Parse trivCodecs (fun _ => none) true
      (.vStruct [.mk "IntVal" false true "INT_VAL" "" (.vInt 0)])
      = (.vStruct [.mk "IntVal" false true "INT_VAL" "" (.vInt 0)],
         some (.missingEnv "INT_VAL")) ∧
    renderGoErr (.missingEnv "INT_VAL") = "missing INT_VAL environment" :=
  Parse_missing_key_short_circuits trivCodecs (fun _ => none) [] [] [] "IntVal" ""
    "INT_VAL" (.vInt 0) [] rfl (by decide) (by decide) rfl

/-- C1 counterexample: target `{C int env:"CK"; A struct{X int env:"NX"}; B int env:"NB"}`
with environment `CK="bad", NX="oops", NB="7"`.  The claim demands that the
leaf failure on `NX` inside the recursion be accumulated into the caller's
accumulator and reported in one final aggregate together with `CK`, with
traversal continuing so that `B` is populated with `7`.  The code instead
returns the nested call's own aggregate (mentioning only `NX`) as an
immediate hard error: the caller's accumulated `CK` entry is discarded and
`B` is never visited, remaining `0`. -/
theorem Parse_nested_error_cex :
    Parse trivCodecs
      (fun k => if k = "CK" then some "bad" else if k = "NX" then some "oops"
                else if k = "NB" then some "7" else none)
      true
      (.vStruct
        [.mk "C" false true "CK" "" (.vInt 0),
         .mk "A" false true "" "" (.vStruct [.mk "X" false true "NX" "" (.vInt 0)]),
         .mk "B" false true "NB" "" (.vInt 0)])
      = (.vStruct
          [.mk "C" false true "CK" "" (.vInt 0),
           .mk "A" false true "" "" (.vStruct [.mk "X" false true "NX" "" (.vInt 0)]),
           .mk "B" false true "NB" "" (.vInt 0)],
         some (.aggregated [("NX", numErrorMsg "Atoi" "oops" "invalid syntax")])) := rfl

/-- C1 amended: when a field is recursed into (it is anonymous, or of
struct kind with an absent or `-` key), every error of the recursive call —
including the nested aggregate built from leaf conversion failures inside
the recursion — is returned immediately as the error of the whole call:
entries already accumulated by the caller are discarded, the nested field
keeps whatever state the recursive call left it in, and fields after it in
declaration order are not visited. -/
theorem Parse_nested_error_short_circuits (c : Codecs) (env : EnvSrc)
    (pre pre' : List GoField) (errs0 : List (String × String))
    (name encTag : String) (anon : Bool) (envTag : String) (v v' : GoVal) (e : GoErr)
    (rest : List GoField)
    (hpre : parseFields c env pre = (pre', .ok errs0))
    (hrec : anon = true ∨ (v.kindIsStruct = true ∧ (envTag = "" ∨ envTag = "-")))
    (hp : Parse c env true v = (v', some e)) :
    Parse c env true (.vStruct (pre ++ .mk name anon true envTag encTag v :: rest))
      = (.vStruct (pre' ++ .mk name anon true envTag encTag v' :: rest), some e) := by
  have hcons : parseFields c env (GoField.mk name anon true envTag encTag v :: rest)
      = (GoField.mk name anon true envTag encTag v' :: rest, .error e) := by
    rw [parseFields, if_neg (by simp), if_pos hrec, hp]
  have happ := parseFields_append c env pre (GoField.mk name anon true envTag encTag v :: rest)
  rw [hpre, hcons] at happ
  have happ2 : parseFields c env (pre ++ GoField.mk name anon true envTag encTag v :: rest)
      = (pre' ++ GoField.mk name anon true envTag encTag v' :: rest, .error e) := happ
  simp [Parse, happ2]

/-- Witness for the amended C1: a named struct field with no key whose
nested conversion failure aborts the call before the sibling `B`. -/
theorem Parse_nested_error_witness :
    Parse trivCodecs (fun k => if k = "NX" then some "oops" else none) true
      (.vStruct
        [.mk "A" false true "" "" (.vStruct [.mk "X" false true "NX" "" (.vInt 0)]),
         .mk "B" false true "NB" "" (.vInt 0)])
      = (.vStruct
          [.mk "A" false true "" "" (.vStruct [.mk "X" false true "NX" "" (.vInt 0)]),
           .mk "B" false true "NB" "" (.vInt 0)],
         some (.aggregated [("NX", numErrorMsg "Atoi" "oops" "invalid syntax")])) :=
  Parse_nested_error_short_circuits trivCodecs
    (fun k => if k = "NX" then some "oops" else none) [] [] [] "A" "" false ""
    (.vStruct [.mk "X" false true "NX" "" (.vInt 0)])
    (.vStruct [.mk "X" false true "NX" "" (.vInt 0)])
    (.aggregated [("NX", numErrorMsg "Atoi" "oops" "invalid syntax")])
    [.mk "B" false true "NB" "" (.vInt 0)]
    rfl (Or.inr ⟨rfl, Or.inl rfl⟩) rfl

/-- Environment for the aggregation witness: two malformed integers and one
valid string. -/
def envAgg : EnvSrc := fun k =>
  if k = "A" then some "x" else if k = "B" then some "y"
  else if k = "C" then some "ok" else none

/-- C3: when the walk finishes without a fatal error, `Parse` succeeds if
the accumulator is empty, and otherwise returns exactly one aggregated
error carrying the accumulated (key, cause) pairs in declaration order,
whose message is the fixed banner followed by one line per pair; moreover a
field whose conversion succeeded holds its converted value in the returned
fields even when other fields fail. -/
theorem Parse_aggregates_and_populates :
    (∀ (c : Codecs) (env : EnvSrc) (fs fs' : List GoField) (errs : List (String × String)),
      parseFields c env fs = (fs', .ok errs) →
        Parse c env true (.vStruct fs)
          = (.vStruct fs', if errs.isEmpty then none else some (.aggregated errs)) ∧
        renderGoErr (.aggregated errs)
          = "error parsing environment to struct:\n" ++ joinedLines errs)
    ∧
    (∀ (c : Codecs) (env : EnvSrc) (pre pre' : List GoField)
       (errs0 : List (String × String)) (name encTag k : String) (v v' : GoVal)
       (s : String) (rest : List GoField),
      parseFields c env pre = (pre', .ok errs0) →
      k ≠ "" → k ≠ "-" →
      env k = some s →
      setValueFromEnv c v encTag s = (v', none) →
        parseFields c env (pre ++ .mk name false true k encTag v :: rest)
          = (pre' ++ .mk name false true k encTag v' :: (parseFields c env rest).1,
             match (parseFields c env rest).2 with
             | .error e => .error e
             | .ok errs2 => .ok (errs0 ++ errs2))) := by
  constructor
  · intro c env fs fs' errs hfs
    exact ⟨by simp [Parse, hfs], renderGoErr_aggregated errs⟩
  · intro c env pre pre' errs0 name encTag k v v' s rest hpre hk1 hk2 henv hconv
    rcases hr : parseFields c env rest with ⟨rest', r⟩
    have hcons : parseFields c env (GoField.mk name false true k encTag v :: rest)
        = (GoField.mk name false true k encTag v' :: rest', r) := by
      simp only [parseFields, henv, hconv, hr]
      simp [hk1, hk2]
    have happ := parseFields_append c env pre (GoField.mk name false true k encTag v :: rest)
    rw [hpre, hcons] at happ
    cases r with
    | error e => exact happ
    | ok errs2 => exact happ

/-- Witness for C3: three annotated fields, two unparseable, the valid
third still populated, one aggregate naming both keys and causes. -/
theorem Parse_aggregates_witness :
    Parse trivCodecs envAgg true
      (.vStruct
        [.mk "A" false true "A" "" (.vInt 0),
         .mk "B" false true "B" "" (.vInt 0),
         .mk "C" false true "C" "" (.vString "")])
      = (.vStruct
          [.mk "A" false true "A" "" (.vInt 0),
           .mk "B" false true "B" "" (.vInt 0),
           .mk "C" false true "C" "" (.vString "ok")],
         some (.aggregated
           [("A", numErrorMsg "Atoi" "x" "invalid syntax"),
            ("B", numErrorMsg "Atoi" "y" "invalid syntax")])) ∧
    renderGoErr (.aggregated
        [("A", numErrorMsg "Atoi" "x" "invalid syntax"),
         ("B", numErrorMsg "Atoi" "y" "invalid syntax")])
      = "error parsing environment to struct:\n"
          ++ joinedLines
            [("A", numErrorMsg "Atoi" "x" "invalid syntax"),
             ("B", numErrorMsg "Atoi" "y" "invalid syntax")] :=
  Parse_aggregates_and_populates.1 trivCodecs envAgg
    [.mk "A" false true "A" "" (.vInt 0),
     .mk "B" false true "B" "" (.vInt 0),
     .mk "C" false true "C" "" (.vString "")]
    [.mk "A" false true "A" "" (.vInt 0),
     .mk "B" false true "B" "" (.vInt 0),
     .mk "C" false true "C" "" (.vString "ok")]
    [("A", numErrorMsg "Atoi" "x" "invalid syntax"),
     ("B", numErrorMsg "Atoi" "y" "invalid syntax")]
    rfl

/-- C4 counterexample: `4294967297 = 2^32 + 1` exceeds the 32-bit range, so
the claim demands that conversion for a `uint32` field fail on it, yet
`setValueFromEnv` succeeds and stores the truncated value `1`. -/
theorem uint32_scalar_overflow_cex :
    setValueFromEnv trivCodecs (.vUint32 0) "" "4294967297" = (.vUint32 1, none) ∧
    2 ^ 32 - 1 < (4294967297 : Nat) := ⟨rfl, by norm_num⟩

/-- C4 amended: scalar unsigned conversion (`uint`, `uint32`, `uint64`)
parses in base 10 at 64-bit width: a leading minus sign is a syntax error
leaving the field unchanged, values of `2^64` or more are a range error
leaving the field unchanged, and an accepted value (necessarily below
`2^64`) is stored — truncated modulo `2^32` on a `uint32` field instead of
being range-checked at the field's declared 32-bit width. -/
theorem uint_scalar_conversion (c : Codecs) (old : Nat) (enc s : String) :
    (s.data.head? = some '-' →
      setValueFromEnv c (.vUint old) enc s
        = (.vUint old, some (numErrorMsg "ParseUint" s "invalid syntax")) ∧
      setValueFromEnv c (.vUint32 old) enc s
        = (.vUint32 old, some (numErrorMsg "ParseUint" s "invalid syntax")) ∧
      setValueFromEnv c (.vUint64 old) enc s
        = (.vUint64 old, some (numErrorMsg "ParseUint" s "invalid syntax"))) ∧
    (∀ n, decDigitsVal? s.data = some n → 2 ^ 64 ≤ n →
      setValueFromEnv c (.vUint32 old) enc s
        = (.vUint32 old, some (numErrorMsg "ParseUint" s "value out of range"))) ∧
    (∀ n, goParseUint "ParseUint" s 64 = .ok n →
      setValueFromEnv c (.vUint old) enc s = (.vUint n, none) ∧
      setValueFromEnv c (.vUint32 old) enc s = (.vUint32 (n % 2 ^ 32), none) ∧
      setValueFromEnv c (.vUint64 old) enc s = (.vUint64 n, none)) := by
  refine ⟨?_, ?_, ?_⟩
  · intro h
    have he := goParseUint_rejects_minus "ParseUint" s 64 h
    exact ⟨by simp [setValueFromEnv, he], by simp [setValueFromEnv, he],
      by simp [setValueFromEnv, he]⟩
  · intro n hd hn
    have he := goParseUint_rejects_big "ParseUint" s 64 n hd hn
    simp [setValueFromEnv, he]
  · intro n hok
    exact ⟨by simp [setValueFromEnv, hok], by simp [setValueFromEnv, hok, wrapUint32],
      by simp [setValueFromEnv, hok]⟩

/-- Witness for the amended C4: `-3` rejected with the field unchanged;
`4294967297` accepted on a `uint32` field and truncated to `1`. -/
theorem uint_scalar_conversion_witness :
    ("-3".data.head? = some '-' ∧
     setValueFromEnv trivCodecs (.vUint32 5) "" "-3"
       = (.vUint32 5, some (numErrorMsg "ParseUint" "-3" "invalid syntax"))) ∧
    (goParseUint "ParseUint" "4294967297" 64 = .ok 4294967297 ∧
     setValueFromEnv trivCodecs (.vUint32 5) "" "4294967297" = (.vUint32 1, none)) :=
  ⟨⟨rfl, ((uint_scalar_conversion trivCodecs 5 "" "-3").1 rfl).2.1⟩,
   ⟨rfl, ((uint_scalar_conversion trivCodecs 5 "" "4294967297").2.2 4294967297 rfl).2.1⟩⟩

/-- C5 counterexample: a `[]string` field is split on commas without
trimming — the raw value `" a ,b"` is stored as `[" a ", "b"]` with the
surrounding whitespace kept, although trimming would have produced `"a"`. -/
theorem string_slice_untrimmed_cex :
    setValueFromEnv trivCodecs (.vSliceString []) "" " a ,b"
      = (.vSliceString [" a ", "b"], none) ∧
    goTrimSpace " a " = "a" ∧ (" a " : String) ≠ "a" :=
  ⟨rfl, rfl, by decide⟩

/-- C5 amended: numeric and float slice fields split the raw value on `,`,
trim surrounding whitespace from each element, convert each with the
corresponding scalar rule, and fail on the first failing element with its
cause, leaving the field unchanged; a `[]string` field splits on `,` with
NO trimming and never fails. -/
theorem slice_conversion_elementwise :
    (∀ (c : Codecs) (old : List String) (enc s : String),
      setValueFromEnv c (.vSliceString old) enc s = (.vSliceString (goSplitComma s), none))
    ∧
    (∀ (α : Type) (conv : String → Except String α)
       (pre : List String) (x : String) (rest : List String) (e : String),
      (∀ y ∈ pre, ∃ v, conv y = .ok v) → conv x = .error e →
        convSlice conv (pre ++ x :: rest) = .error e)
    ∧
    (∀ (α : Type) (conv : String → Except String α) (xs : List String) (ys : List α),
      convSlice conv xs = .ok ys → List.Forall₂ (fun x y => conv x = .ok y) xs ys)
    ∧
    (∀ (c : Codecs) (enc s : String),
      (∀ old, setValueFromEnv c (.vSliceInt old) enc s
        = (match convSlice (fun x => goAtoi (goTrimSpace x)) (goSplitComma s) with
           | .error e => (.vSliceInt old, some e)
           | .ok xs => (.vSliceInt xs, none))) ∧
      (∀ old, setValueFromEnv c (.vSliceInt32 old) enc s
        = (match convSlice (fun x => (goAtoi (goTrimSpace x)).map wrapInt32)
              (goSplitComma s) with
           | .error e => (.vSliceInt32 old, some e)
           | .ok xs => (.vSliceInt32 xs, none))) ∧
      (∀ old, setValueFromEnv c (.vSliceInt64 old) enc s
        = (match convSlice (fun x => goParseInt "ParseInt" (goTrimSpace x) 64)
              (goSplitComma s) with
           | .error e => (.vSliceInt64 old, some e)
           | .ok xs => (.vSliceInt64 xs, none))) ∧
      (∀ old, setValueFromEnv c (.vSliceFloat32 old) enc s
        = (match convSlice (fun x => c.parseFloat 32 (goTrimSpace x)) (goSplitComma s) with
           | .error e => (.vSliceFloat32 old, some e)
           | .ok xs => (.vSliceFloat32 xs, none))) ∧
      (∀ old, setValueFromEnv c (.vSliceFloat64 old) enc s
        = (match convSlice (fun x => c.parseFloat 64 (goTrimSpace x)) (goSplitComma s) with
           | .error e => (.vSliceFloat64 old, some e)
           | .ok xs => (.vSliceFloat64 xs, none))) ∧
      (∀ old, setValueFromEnv c (.vSliceUint old) enc s
        = (match convSlice (fun x => goParseUint "ParseUint" (goTrimSpace x) 64)
              (goSplitComma s) with
           | .error e => (.vSliceUint old, some e)
           | .ok xs => (.vSliceUint xs, none))) ∧
      (∀ old, setValueFromEnv c (.vSliceUint32 old) enc s
        = (match convSlice (fun x => (goParseUint "ParseUint" (goTrimSpace x) 32).map wrapUint32)
              (goSplitComma s) with
           | .error e => (.vSliceUint32 old, some e)
           | .ok xs => (.vSliceUint32 xs, none))) ∧
      (∀ old, setValueFromEnv c (.vSliceUint64 old) enc s
        = (match convSlice (fun x => goParseUint "ParseUint" (goTrimSpace x) 64)
              (goSplitComma s) with
           | .error e => (.vSliceUint64 old, some e)
           | .ok xs => (.vSliceUint64 xs, none)))) := by
  refine ⟨fun c old enc s => rfl,
    fun α conv pre x rest e h1 h2 => convSlice_first_error conv pre x rest e h1 h2,
    fun α conv xs ys h => convSlice_ok_forall conv xs ys h,
    fun c enc s => ?_⟩
  exact ⟨fun old => rfl, fun old => rfl, fun old => rfl, fun old => rfl, fun old => rfl,
    fun old => rfl, fun old => rfl, fun old => rfl⟩

/-- Witness for the amended C5: `"1, 2,3e"` on a `[]int` field trims each
element, fails on the first failing element `"3e"` with its cause, and
leaves the field unchanged; `" a ,b"` on a `[]string` field stores the
untrimmed parts. -/
theorem slice_conversion_witness :
    setValueFromEnv trivCodecs (.vSliceString ["z"]) "" " a ,b"
      = (.vSliceString [" a ", "b"], none) ∧
    convSlice (fun x => goAtoi (goTrimSpace x)) (["1", " 2"] ++ "3e" :: [])
      = .error (numErrorMsg "Atoi" "3e" "invalid syntax") ∧
    setValueFromEnv trivCodecs (.vSliceInt [7]) "" "1, 2,3e"
      = (.vSliceInt [7], some (numErrorMsg "Atoi" "3e" "invalid syntax")) :=
  ⟨slice_conversion_elementwise.1 trivCodecs ["z"] "" " a ,b",
   slice_conversion_elementwise.2.1 Int (fun x => goAtoi (goTrimSpace x))
     ["1", " 2"] "3e" [] (numErrorMsg "Atoi" "3e" "invalid syntax")
     (by
       intro y hy
       rcases List.mem_cons.mp hy with rfl | hy'
       · exact ⟨1, rfl⟩
       · rcases List.mem_cons.mp hy' with rfl | hy''
         · exact ⟨2, rfl⟩
         · cases hy'')
     rfl,
   (slice_conversion_elementwise.2.2.2 trivCodecs "" "1, 2,3e").1 [7]⟩

/-- C6 counterexample: in the `json` branch the field's address is handed
to the external codec (`json.Unmarshal(data, field.Addr().Interface())`),
so a codec that writes through the pointer and still returns an error — as
`encoding/json` does on a type error met after other members were already
decoded — leaves the field mutated although the conversion reported
failure: the conversion attempt neither succeeded nor left the field
unchanged. -/
theorem conversion_partial_write_cex :
    setValueFromEnv mutCodecs (.vStruct []) "json" "{}"
      = (.vString "clobbered", some "json error") ∧
    GoVal.vString "clobbered" ≠ GoVal.vStruct [] :=
  ⟨rfl, fun h => by cases h⟩

/-- C6 amended: for every codec instance, a failing conversion leaves the
field unchanged at its prior value in every branch except `json`/`xml`: all
primitive and collection parses write only after success, and the
`form`/`base64` branches store the codec result only on success; in the
`json`/`xml` branches the failure state of the field is whatever the
external codec left through the field's address. -/
theorem conversion_no_partial_writes (c : Codecs) (v : GoVal) (enc s : String)
    (v' : GoVal) (e : String)
    (h : setValueFromEnv c v enc s = (v', some e))
    (hbranch : v.inTypeSwitch = true ∨ (enc ≠ "json" ∧ enc ≠ "xml")) :
    v' = v := by
  cases v <;> simp only [setValueFromEnv] at h
  all_goals try split at h
  all_goals try split at h
  all_goals try simp at h
  all_goals try first | exact h.1.symm | exact h.1
  all_goals
    rcases hbranch with hb | ⟨hj, hx⟩
    · simp [GoVal.inTypeSwitch] at hb
    · simp_all

/-- Witness for the amended C6: a failing scalar int conversion leaves the
field at its prior value. -/
theorem conversion_no_partial_writes_witness :
    setValueFromEnv trivCodecs (.vInt 5) "" "bad"
      = (.vInt 5, some (numErrorMsg "Atoi" "bad" "invalid syntax")) ∧
    (GoVal.vInt 5) = (.vInt 5) :=
  ⟨rfl, conversion_no_partial_writes trivCodecs (.vInt 5) "" "bad" (.vInt 5)
    (numErrorMsg "Atoi" "bad" "invalid syntax") rfl (Or.inl rfl)⟩

/-- C8: an annotated field whose type is unhandled by the type switch and
whose encoding tag is none of json/xml/form/base64 is a silent no-op:
`setValueFromEnv` reports success leaving the value untouched, and a call
over a struct with such a field succeeds with no error accumulated and the
field still at its prior (zero) value. -/
theorem unhandled_type_silent_noop (c : Codecs) (env : EnvSrc) (v : GoVal)
    (name enc k s : String)
    (hv : v.inTypeSwitch = false)
    (hj : enc ≠ "json") (hx : enc ≠ "xml") (hf : enc ≠ "form") (hb : enc ≠ "base64")
    (hk1 : k ≠ "") (hk2 : k ≠ "-")
    (henv : env k = some s) :
    setValueFromEnv c v enc s = (v, none) ∧
    Parse c env true (.vStruct [.mk name false true k enc v])
      = (.vStruct [.mk name false true k enc v], none) := by
  have h1 : setValueFromEnv c v enc s = (v, none) := by
    cases v <;>
      first
        | (simp [GoVal.inTypeSwitch] at hv; done)
        | simp [setValueFromEnv, hj, hx, hf, hb]
  refine ⟨h1, ?_⟩
  have hfield : parseFields c env [GoField.mk name false true k enc v]
      = ([GoField.mk name false true k enc v], .ok []) := by
    simp only [parseFields, henv, h1]
    simp [hk1, hk2]
  simp [Parse, hfield]

/-- Witness for C8: an unrecognized-type field with an empty encoding tag
is skipped silently even though its key is present. -/
theorem unhandled_type_silent_noop_witness :
    setValueFromEnv trivCodecs (.vOpaque "CustomMap") "" "x"
      = (.vOpaque "CustomMap", none) ∧
    Parse trivCodecs (fun k => if k = "CUSTOM" then some "x" else none) true
      (.vStruct [.mk "M" false true "CUSTOM" "" (.vOpaque "CustomMap")])
      = (.vStruct [.mk "M" false true "CUSTOM" "" (.vOpaque "CustomMap")], none) :=
  unhandled_type_silent_noop trivCodecs (fun k => if k = "CUSTOM" then some "x" else none)
    (.vOpaque "CustomMap") "M" "" "CUSTOM" "x" rfl
    (by decide) (by decide) (by decide) (by decide) (by decide) (by decide) rfl

/-- C9: a default-branch field tagged `form` is decoded with the model of
`url.ParseQuery`: on success the field holds the multi-valued map and on
failure the codec's error is surfaced as the conversion failure with the
field unchanged; and success requires every `&`-separated segment to be
free of `;` and validly percent-encoded on both sides of its first `=`, so
a `;` pair separator or a malformed escape always fails the conversion. -/
theorem form_decodes_with_parse_query (c : Codecs) (v : GoVal) (s : String)
    (hv : v.inTypeSwitch = false) :
    (∀ m, goParseQuery s = .ok m → setValueFromEnv c v "form" s = (.vValues m, none)) ∧
    (∀ e, goParseQuery s = .error e → setValueFromEnv c v "form" s = (v, some e)) ∧
    (∀ m, goParseQuery s = .ok m →
      ∀ seg ∈ (splitChar '&' s.data).map (fun l => String.mk l),
        seg.data.contains ';' = false ∧
        (seg ≠ "" → (∃ k, queryUnescapeAux (cutChar '=' seg.data).1 = .ok k) ∧
          (∃ w, queryUnescapeAux (cutChar '=' seg.data).2 = .ok w))) := by
  refine ⟨?_, ?_, fun m hm => goParseQuery_ok_clean s m hm⟩
  · intro m hm
    cases v <;> first
      | (simp [GoVal.inTypeSwitch] at hv; done)
      | simp [setValueFromEnv, hm]
  · intro e he
    cases v <;> first
      | (simp [GoVal.inTypeSwitch] at hv; done)
      | simp [setValueFromEnv, he]

/-- Witness for C9: a well-formed query decodes into the multi-map, and a
semicolon-separated query fails with the codec's error, the field
unchanged. -/
theorem form_decodes_witness :
    setValueFromEnv trivCodecs (.vValues []) "form" "field1=value&field2=val"
      = (.vValues [("field1", ["value"]), ("field2", ["val"])], none) ∧
    setValueFromEnv trivCodecs (.vValues []) "form" "field1=value;field2=val"
      = (.vValues [], some "invalid semicolon separator in query") :=
  ⟨(form_decodes_with_parse_query trivCodecs (.vValues []) "field1=value&field2=val" rfl).1
      [("field1", ["value"]), ("field2", ["val"])] rfl,
   (form_decodes_with_parse_query trivCodecs (.vValues []) "field1=value;field2=val" rfl).2.1
      "invalid semicolon separator in query" rfl⟩

/-- C10: `int32` and `uint32` scalar fields parse at 64-bit width and store
the value truncated to 32 bits: every `Atoi`-accepted value (the full
signed 64-bit range) is stored through the two's-complement 32-bit
truncation, and every `ParseUint`-accepted value (anything below `2^64`) is
stored reduced modulo `2^32`, so a 64-bit-representable value outside the
32-bit range succeeds with only its low 32 bits kept rather than failing. -/
theorem int32_uint32_truncation (c : Codecs) (old32 : Int) (oldu : Nat) (enc s : String) :
    (∀ n, goAtoi s = .ok n →
      setValueFromEnv c (.vInt32 old32) enc s = (.vInt32 (wrapInt32 n), none) ∧
      -(2 ^ 63) ≤ n ∧ n < 2 ^ 63) ∧
    (∀ n, goParseUint "ParseUint" s 64 = .ok n →
      setValueFromEnv c (.vUint32 oldu) enc s = (.vUint32 (n % 2 ^ 32), none) ∧
      n < 2 ^ 64) := by
  constructor
  · intro n hn
    exact ⟨by simp [setValueFromEnv, hn], goAtoi_ok_range s n hn⟩
  · intro n hn
    exact ⟨by simp [setValueFromEnv, hn, wrapUint32], goParseUint_ok_lt "ParseUint" s 64 n hn⟩

/-- Witness for C10: `2147483648 = 2^31` wraps to `-2^31` on an `int32`
field, and `4294967297 = 2^32 + 1` reduces to `1` on a `uint32` field. -/
theorem int32_uint32_truncation_witness :
    (goAtoi "2147483648" = .ok 2147483648 ∧
     setValueFromEnv trivCodecs (.vInt32 0) "" "2147483648"
       = (.vInt32 (-2147483648), none)) ∧
    (goParseUint "ParseUint" "4294967297" 64 = .ok 4294967297 ∧
     setValueFromEnv trivCodecs (.vUint32 0) "" "4294967297" = (.vUint32 1, none)) := by
  refine ⟨⟨rfl, ?_⟩, ⟨rfl, ?_⟩⟩
  · have h := ((int32_uint32_truncation trivCodecs 0 0 "" "2147483648").1 2147483648 rfl).1
    rw [h]
    norm_num [wrapInt32]
  · have h := ((int32_uint32_truncation trivCodecs 0 0 "" "4294967297").2 4294967297 rfl).1
    rw [h]
    norm_num
